import Mathlib

/-!
A verification development for the DJI telemetry pipeline
(`extract_srt_metadata.py`, `create_consolidated_csv.py`,
`add_health_index.py`, `generate_analytical_map.py`).

The Python code is shallowly embedded: machine floats are modelled as exact
rationals (`ℚ`), Python's `int(...)` truncation and `round(x, 2)` banker's
rounding are modelled explicitly, and the two standard-library numeric
functions that the scoring code calls (`math.sqrt` and `random.gauss`) are
taken as parameters, since their numeric values never decide any of the
properties below.  Strings are modelled as `List Char`.
-/

/-! ## Python numeric primitives -/

/-- Python `int(q)` on a real value: truncation toward zero. -/
def pyTrunc (q : ℚ) : ℤ :=
  if 0 ≤ q then ⌊q⌋ else ⌈q⌉

/-- Round to the nearest integer, ties to even — the behaviour of Python 3's
built-in `round` on exact values. -/
def roundHalfEven (q : ℚ) : ℤ :=
  let f : ℤ := ⌊q⌋
  let r : ℚ := q - (f : ℚ)
  if r < 1/2 then f
  else if 1/2 < r then f + 1
  else if Even f then f else f + 1

/-- Python `round(q, 2)`: round to two decimal places, ties to even. -/
def round2 (q : ℚ) : ℚ :=
  (roundHalfEven (q * 100) : ℚ) / 100

theorem roundHalfEven_nonneg {q : ℚ} (h : 0 ≤ q) : 0 ≤ roundHalfEven q := by
  unfold roundHalfEven
  have hf : (0:ℤ) ≤ ⌊q⌋ := Int.floor_nonneg.mpr h
  dsimp only
  split
  · exact hf
  · split
    · omega
    · split
      · exact hf
      · omega

theorem roundHalfEven_le_of_le {q : ℚ} {n : ℤ} (h : q ≤ (n : ℚ)) :
    roundHalfEven q ≤ n := by
  unfold roundHalfEven
  have hf : ⌊q⌋ ≤ n := by
    have := Int.floor_le_floor h
    simpa using this
  dsimp only
  rcases lt_or_eq_of_le hf with hlt | heq
  · split
    · omega
    · split
      · omega
      · split
        · omega
        · omega
  · -- ⌊q⌋ = n, hence the fractional part is ≤ 0 and we round down
    have hq : q - (⌊q⌋ : ℚ) ≤ 0 := by
      have : (⌊q⌋ : ℚ) = (n : ℚ) := by exact_mod_cast heq
      linarith
    split
    · omega
    · rename_i h1
      exfalso
      have : (0:ℚ) < 1/2 := by norm_num
      linarith
  -- done

/-! ## The Synthetic Score Generator (`add_health_index.generate_health_index`)

`random.seed(seed)` / `random.gauss(0, 8)` are modelled by an explicit
generator state: after `random.seed(n)` the state is `⟨n, 0⟩`, and every draw
is a function `gaussF` of the seed and of the number of draws made since
seeding — exactly the semantics of Python's global Mersenne–Twister generator.
`math.sqrt` is modelled as a parameter `sqrtQ`.  Neither function's numeric
output decides any claim below. -/

/-- The state of Python's process-wide `random` generator: the last seed and
the number of draws made since that seed was set. -/
structure RandomState where
  seed : ℤ
  counter : ℕ
  deriving DecidableEq, Repr

/-- `random.seed(n)`: fully reseed, discarding the previous state. -/
def randomSeed (n : ℤ) : RandomState := ⟨n, 0⟩

/-- `random.gauss(0, 8)`: one draw, advancing the state.  `gaussF s k` is the
value of the `k`-th gaussian draw after seeding with `s`. -/
def randomGauss (gaussF : ℤ → ℕ → ℚ) (st : RandomState) : ℚ × RandomState :=
  (gaussF st.seed st.counter, ⟨st.seed, st.counter + 1⟩)

/-- The seed computed at `add_health_index.py:20`:
`int(abs(latitude * 10000) + abs(longitude * 10000))`. -/
def seedOf (latitude longitude : ℚ) : ℤ :=
  pyTrunc (|latitude * 10000| + |longitude * 10000|)

/-- The altitude bonus of `add_health_index.py:40-42`.  The guard is Python's
`if relative_altitude:`, which is false both for `None` and for `0.0`. -/
def altitudeBonus (relative_altitude : Option ℚ) : ℚ :=
  match relative_altitude with
  | none => 0
  | some a => if a = 0 then 0 else min 5 ((a - 3/2) * 2)

/-- `add_health_index.generate_health_index`, with the global generator state
threaded explicitly.  `fi` and `vn` mirror the unused `frame_index` and
`video_name` parameters. -/
def generate_health_index (gaussF : ℤ → ℕ → ℚ) (sqrtQ : ℚ → ℚ)
    (st : RandomState) (latitude longitude : ℚ) (relative_altitude : Option ℚ)
    (fi : List Char) (vn : List Char) : ℚ × RandomState :=
  let _ := st
  let _ := fi
  let _ := vn
  let seed := seedOf latitude longitude
  let st1 := randomSeed seed
  let center_lat : ℚ := 50329/1000
  let center_lon : ℚ := 11939/1000
  let lat_diff := |latitude - center_lat|
  let lon_diff := |longitude - center_lon|
  let distance := sqrtQ (lat_diff ^ 2 + lon_diff ^ 2) * 111000
  let base_health := 85 - distance / 50
  let gv := randomGauss gaussF st1
  let variation := gv.1
  let st2 := gv.2
  let bonus := altitudeBonus relative_altitude
  let health := base_health + variation + bonus
  let health := max 0 (min 100 health)
  (round2 health, st2)

/-! ### C1: determinism of the score generator -/

/-- C1: the score returned by the Synthetic Score Generator is a function of
`(latitude, longitude, relative_altitude)` alone — the incoming generator
state, i.e. the effect of any earlier call, is fully overwritten by the
reseed, so two calls with identical coordinates yield bit-identical scores. -/
theorem generate_health_index_deterministic
    (gaussF : ℤ → ℕ → ℚ) (sqrtQ : ℚ → ℚ) (st st' : RandomState)
    (latitude longitude : ℚ) (relative_altitude : Option ℚ)
    (fi vn fi' vn' : List Char) :
    (generate_health_index gaussF sqrtQ st latitude longitude
        relative_altitude fi vn).1
      = (generate_health_index gaussF sqrtQ st' latitude longitude
        relative_altitude fi' vn').1 := rfl

/-! ### C2: the seed formula -/

/-- C2 counterexample: the claim says the seed equals
`⌊|lat|·10000⌋ + ⌊|lon|·10000⌋`.  At `lat = lon = 1/20000` the code's seed,
`int(|lat·10000| + |lon·10000|) = int(0.5 + 0.5) = 1`, differs from
`⌊0.5⌋ + ⌊0.5⌋ = 0`. -/
theorem seedOf_ne_sum_of_floors :
    seedOf (1/20000) (1/20000)
      ≠ ⌊|(1/20000 : ℚ)| * 10000⌋ + ⌊|(1/20000 : ℚ)| * 10000⌋ := by
  have e1 : |(1/20000 : ℚ) * 10000| + |(1/20000 : ℚ) * 10000| = 1 := by
    rw [show (1/20000 : ℚ) * 10000 = 1/2 by norm_num,
      abs_of_pos (by norm_num : (0:ℚ) < 1/2)]
    norm_num
  have e2 : |(1/20000 : ℚ)| * 10000 = 1/2 := by
    rw [abs_of_pos (by norm_num : (0:ℚ) < 1/20000)]
    norm_num
  have h1 : seedOf (1/20000) (1/20000) = 1 := by
    unfold seedOf
    rw [e1]
    unfold pyTrunc
    rw [if_pos (by norm_num : (0:ℚ) ≤ 1)]
    exact Int.floor_one
  have h2 : ⌊|(1/20000 : ℚ)| * 10000⌋ = 0 := by
    rw [e2]
    rw [Int.floor_eq_zero_iff.mpr (by norm_num [Set.mem_Ico])]
  rw [h1, h2]
  norm_num

/-- C2 amended: the seed equals the floor of the *sum*
`⌊|lat|·10000 + |lon|·10000⌋` (the code truncates once, after adding the two
scaled absolute values). -/
theorem seedOf_eq_floor_sum (latitude longitude : ℚ) :
    seedOf latitude longitude = ⌊|latitude| * 10000 + |longitude| * 10000⌋ := by
  unfold seedOf pyTrunc
  have h1 : |latitude * 10000| = |latitude| * 10000 := by
    rw [abs_mul]; norm_num
  have h2 : |longitude * 10000| = |longitude| * 10000 := by
    rw [abs_mul]; norm_num
  have hpos : 0 ≤ |latitude * 10000| + |longitude * 10000| :=
    add_nonneg (abs_nonneg _) (abs_nonneg _)
  rw [if_pos hpos, h1, h2]

/-! ### C5: every score lies in `[0, 100]` and has two decimal places -/

/-- C5: every score produced by the Synthetic Score Generator lies in
`[0, 100]` and is an integer multiple of `1/100` (two decimal places). -/
theorem generate_health_index_range
    (gaussF : ℤ → ℕ → ℚ) (sqrtQ : ℚ → ℚ) (st : RandomState)
    (latitude longitude : ℚ) (relative_altitude : Option ℚ)
    (fi vn : List Char) :
    0 ≤ (generate_health_index gaussF sqrtQ st latitude longitude
          relative_altitude fi vn).1
    ∧ (generate_health_index gaussF sqrtQ st latitude longitude
          relative_altitude fi vn).1 ≤ 100
    ∧ ∃ n : ℤ, (generate_health_index gaussF sqrtQ st latitude longitude
          relative_altitude fi vn).1 = (n : ℚ) / 100 := by
  have key : ∀ x : ℚ, 0 ≤ round2 (max 0 (min 100 x))
      ∧ round2 (max 0 (min 100 x)) ≤ 100
      ∧ ∃ n : ℤ, round2 (max 0 (min 100 x)) = (n : ℚ) / 100 := by
    intro x
    have hlo : (0:ℚ) ≤ max 0 (min 100 x) := le_max_left _ _
    have hhi : max 0 (min 100 x) ≤ 100 := max_le (by norm_num) (min_le_left _ _)
    refine ⟨?_, ?_, ⟨roundHalfEven (max 0 (min 100 x) * 100), rfl⟩⟩
    · unfold round2
      have h1 : (0:ℤ) ≤ roundHalfEven (max 0 (min 100 x) * 100) :=
        roundHalfEven_nonneg (by positivity)
      have h2 : (0:ℚ) ≤ (roundHalfEven (max 0 (min 100 x) * 100) : ℚ) := by
        exact_mod_cast h1
      positivity
    · unfold round2
      have hle : max 0 (min 100 x) * 100 ≤ ((10000 : ℤ) : ℚ) := by
        push_cast; linarith
      have h1 := roundHalfEven_le_of_le hle
      have h2 : ((roundHalfEven (max 0 (min 100 x) * 100)) : ℚ) ≤ 10000 := by
        exact_mod_cast h1
      linarith
  exact key _

/-! ### C7: the altitude bonus -/

/-- C7 counterexample: at a present altitude of `0` the code adds no bonus
(Python's `if relative_altitude:` is false at `0.0`), whereas the claim's
formula `min(5, (0 − 1.5)·2)` would demand `−3`. -/
theorem altitudeBonus_zero_counterexample :
    altitudeBonus (some 0) = 0 ∧ min (5 : ℚ) (((0 : ℚ) - 3/2) * 2) = -3 := by
  constructor
  · rfl
  · norm_num

/-- C7 amended: the altitude bonus is `min(5, (alt − 1.5)·2)` whenever the
altitude is present *and nonzero* — capped at `+5` above, uncapped below —
and is `0` when the altitude is absent or equal to `0`. -/
theorem altitudeBonus_spec (a : ℚ) (h : a ≠ 0) :
    altitudeBonus (some a) = min 5 ((a - 3/2) * 2)
    ∧ altitudeBonus none = 0
    ∧ altitudeBonus (some 0) = 0 := by
  refine ⟨?_, rfl, rfl⟩
  simp only [altitudeBonus, if_neg h]

/-- Witness for `altitudeBonus_spec` at `a = 5`. -/
theorem altitudeBonus_spec_witness :
    altitudeBonus (some 5) = min 5 (((5 : ℚ) - 3/2) * 2)
    ∧ altitudeBonus none = 0
    ∧ altitudeBonus (some 0) = 0 :=
  altitudeBonus_spec 5 (by norm_num)

/-! ## The Telemetry Block Parser (`extract_srt_metadata.py`)

Lines are `List Char`.  The regex patterns of `parse_metadata_line`,
`extract_frame_info` and the `FrameCnt` / timestamp searches all have the
shape *literal, then `\s*` (or `\s+`), then a character-class repetition,
then possibly a closing `]`*.  Such a pattern is matched here by an explicit
matcher: the `\s*` part backtracks (longest first, as Python's engine does),
and the class repetition needs no backtracking because every character class
used excludes the character `]` that may have to follow it. -/

/-- Python's `\s` class: space, tab, newline, carriage return, vertical tab,
form feed. -/
def isPyWs (c : Char) : Bool :=
  c = ' ' || c = '\t' || c = '\n' || c = '\r' || c = '\x0b' || c = '\x0c'

/-- The class `[\d.]` used by the coordinate, `fnum`, `focal_len` and
altitude patterns. -/
def isDigitDot (c : Char) : Bool := c.isDigit || c = '.'

/-- Maximal run of characters satisfying `p`, together with the remainder. -/
def takeRun (p : Char → Bool) : List Char → List Char × List Char
  | [] => ([], [])
  | c :: cs =>
    if p c then
      match takeRun p cs with
      | (r, rest) => (c :: r, rest)
    else ([], c :: cs)

/-- Match a literal: `dropLit lit s = some rest` iff `s = lit ++ rest`. -/
def dropLit : List Char → List Char → Option (List Char)
  | [], s => some s
  | _ :: _, [] => none
  | c :: cs, d :: ds => if c = d then dropLit cs ds else none

/-- Match `(class)+` (greedy, as one maximal run) and, when `needClose` is
set, a following `]`.  Shortening the run could never expose a `]`, since
every class used excludes `]`, so the maximal run is the only candidate. -/
def matchValue (p : Char → Bool) (needClose : Bool) (t : List Char) :
    Option (List Char) :=
  if (takeRun p t).1.isEmpty then none
  else if needClose then
    match (takeRun p t).2 with
    | ']' :: _ => some (takeRun p t).1
    | _ => none
  else some (takeRun p t).1

/-- Backtracking over the `\s*` part: `wRev` is the reversed run of
whitespace still consumed; try the value match greedily first, then give
whitespace back one character at a time. -/
def matchWsThenValue (p : Char → Bool) (needClose : Bool) :
    List Char → List Char → Option (List Char)
  | [], t => matchValue p needClose t
  | c :: wRev', t =>
    match matchValue p needClose t with
    | some v => some v
    | none => matchWsThenValue p needClose wRev' (c :: t)

/-- Match one tag pattern at the current position: the literal head, then
`\s*` (with backtracking), then `(class)+` and possibly `]`. -/
def matchTagAt (lit : List Char) (p : Char → Bool) (needClose : Bool)
    (s : List Char) : Option (List Char) :=
  match dropLit lit s with
  | none => none
  | some rest =>
    matchWsThenValue p needClose (takeRun isPyWs rest).1.reverse
      (takeRun isPyWs rest).2

/-- `re.search`: try the pattern at every position, leftmost match wins. -/
def reSearch (f : List Char → Option (List Char)) : List Char → Option (List Char)
  | [] => f []
  | c :: cs =>
    match f (c :: cs) with
    | some v => some v
    | none => reSearch f cs

/-- Search a whole line for one tag pattern. -/
def searchTag (lit : String) (p : Char → Bool) (needClose : Bool)
    (s : List Char) : Option (List Char) :=
  reSearch (matchTagAt lit.toList p needClose) s

/-- Take exactly `n` digits. -/
def takeDigits : ℕ → List Char → Option (List Char × List Char)
  | 0, s => some ([], s)
  | _ + 1, [] => none
  | n + 1, c :: cs =>
    if c.isDigit then (takeDigits n cs).map (fun dr => (c :: dr.1, dr.2))
    else none

/-- Match one expected character. -/
def dropChar (c : Char) : List Char → Option (List Char)
  | [] => none
  | d :: ds => if d = c then some ds else none

/-- Match the timestamp pattern
`\d{4}-\d{2}-\d{2}\s+\d{2}:\d{2}:\d{2}\.\d{3}` at the current position,
returning the matched text.  `\s+` needs no backtracking because `\s` and
`\d` are disjoint. -/
def matchTimestampAt (s0 : List Char) : Option (List Char) := do
  let (d1, s1) ← takeDigits 4 s0
  let s2 ← dropChar '-' s1
  let (d2, s3) ← takeDigits 2 s2
  let s4 ← dropChar '-' s3
  let (d3, s5) ← takeDigits 2 s4
  match takeRun isPyWs s5 with
  | (w, s6) =>
    if w.isEmpty then none else do
      let (hh, s7) ← takeDigits 2 s6
      let s8 ← dropChar ':' s7
      let (mi, s9) ← takeDigits 2 s8
      let s10 ← dropChar ':' s9
      let (se, s11) ← takeDigits 2 s10
      let s12 ← dropChar '.' s11
      let (ms, _) ← takeDigits 3 s12
      pure (d1 ++ '-' :: d2 ++ '-' :: d3 ++ w ++ hh ++ ':' :: mi
        ++ ':' :: se ++ '.' :: ms)

/-- The fields extracted by `parse_metadata_line`. -/
structure Metadata where
  iso : Option (List Char)
  shutter : Option (List Char)
  fnum : Option (List Char)
  ev : Option (List Char)
  color_md : Option (List Char)
  focal_len : Option (List Char)
  latitude : Option (List Char)
  longitude : Option (List Char)
  rel_alt : Option (List Char)
  abs_alt : Option (List Char)
  ct : Option (List Char)
  deriving DecidableEq, Repr

/-- The pattern `\[latitude:\s*([\d.]+)\]` applied by `re.search`. -/
def extractLatitude (line : List Char) : Option (List Char) :=
  searchTag "[latitude:" isDigitDot true line

/-- The pattern `\[longitude:\s*([\d.]+)\]` applied by `re.search`. -/
def extractLongitude (line : List Char) : Option (List Char) :=
  searchTag "[longitude:" isDigitDot true line

/-- `extract_srt_metadata.parse_metadata_line`: each tag is extracted
independently by its own pattern. -/
def parse_metadata_line (line : List Char) : Metadata where
  iso := searchTag "[iso:" Char.isDigit true line
  shutter := searchTag "[shutter:" (fun c => c ≠ ']') true line
  fnum := searchTag "[fnum:" isDigitDot true line
  ev := searchTag "[ev:" (fun c => c.isDigit || c = '-') true line
  color_md := searchTag "[color_md:" (fun c => c ≠ ']') true line
  focal_len := searchTag "[focal_len:" isDigitDot true line
  latitude := extractLatitude line
  longitude := extractLongitude line
  rel_alt := searchTag "[rel_alt:" isDigitDot false line
  abs_alt := searchTag "abs_alt:" isDigitDot true line
  ct := searchTag "[ct:" Char.isDigit true line

/-- One parsed frame record (`frame_data` of `extract_frame_info`). -/
structure FrameData where
  frame_index : Option (List Char)
  timestamp : Option (List Char)
  iso : Option (List Char)
  shutter : Option (List Char)
  aperture : Option (List Char)
  ev : Option (List Char)
  color_mode : Option (List Char)
  focal_length : Option (List Char)
  latitude : Option (List Char)
  longitude : Option (List Char)
  relative_altitude : Option (List Char)
  absolute_altitude : Option (List Char)
  color_temperature : Option (List Char)
  deriving DecidableEq, Repr

/-- First line on which the given search succeeds (the `for line in lines`
loops with `break`). -/
def findFirstMatch (f : List Char → Option (List Char)) :
    List (List Char) → Option (List Char)
  | [] => none
  | l :: ls =>
    match f l with
    | some v => some v
    | none => findFirstMatch f ls

/-- The `FrameCnt:\s*(\d+)` search over the block's lines. -/
def findFrameCnt (lines : List (List Char)) : Option (List Char) :=
  findFirstMatch (searchTag "FrameCnt:" Char.isDigit false) lines

/-- The timestamp search over the block's lines. -/
def findTimestamp (lines : List (List Char)) : Option (List Char) :=
  findFirstMatch (reSearch matchTimestampAt) lines

/-- A metadata-tag line: contains `[`, `:` and `]`. -/
def isMetaLine (l : List Char) : Bool :=
  l.contains '[' && l.contains ':' && l.contains ']'

/-- Python truthiness of an optional string: `None` and `""` are falsy. -/
def pyTruthy (o : Option (List Char)) : Bool :=
  match o with
  | none => false
  | some s => !s.isEmpty

/-- `extract_srt_metadata.extract_frame_info`: parse one block, returning a
record only when `frame_index`, `latitude` and `longitude` are all truthy. -/
def extract_frame_info (lines : List (List Char)) : Option FrameData :=
  let fi := findFrameCnt lines
  let ts := findTimestamp lines
  match lines.find? isMetaLine with
  | none => none
  | some ml =>
    let md := parse_metadata_line ml
    let fd : FrameData :=
      { frame_index := fi
        timestamp := ts
        iso := md.iso
        shutter := md.shutter
        aperture := md.fnum
        ev := md.ev
        color_mode := md.color_md
        focal_length := md.focal_len
        latitude := md.latitude
        longitude := md.longitude
        relative_altitude := md.rel_alt
        absolute_altitude := md.abs_alt
        color_temperature := md.ct }
    if pyTruthy fd.frame_index && pyTruthy fd.latitude && pyTruthy fd.longitude
    then some fd else none

/-! ### Matcher lemmas -/

theorem takeRun_cons (p : Char → Bool) (c : Char) (cs : List Char) :
    takeRun p (c :: cs) =
      if p c then (c :: (takeRun p cs).1, (takeRun p cs).2) else ([], c :: cs) := by
  rcases h : takeRun p cs with ⟨r, rest⟩
  simp only [takeRun, h]

theorem takeRun_all (p : Char → Bool) :
    ∀ s : List Char, ∀ c ∈ (takeRun p s).1, p c = true := by
  intro s
  induction s with
  | nil => intro c h; simp [takeRun] at h
  | cons a as ih =>
    intro c h
    rw [takeRun_cons] at h
    by_cases hp : p a
    · simp only [hp, if_true] at h
      rcases List.mem_cons.mp h with h | h
      · subst h; exact hp
      · exact ih c h
    · simp [hp] at h

theorem matchValue_some {p : Char → Bool} {nc : Bool} {t v : List Char}
    (h : matchValue p nc t = some v) : v ≠ [] ∧ ∀ c ∈ v, p c = true := by
  have hall := takeRun_all p t
  unfold matchValue at h
  split at h
  · cases h
  · rename_i he
    have hne : (takeRun p t).1 ≠ [] := by
      intro hn
      exact he (by rw [hn]; rfl)
    split at h
    · split at h
      · cases h
        exact ⟨hne, hall⟩
      · cases h
    · cases h
      exact ⟨hne, hall⟩

theorem matchWsThenValue_some {p : Char → Bool} {nc : Bool} :
    ∀ (wRev t v : List Char), matchWsThenValue p nc wRev t = some v →
      v ≠ [] ∧ ∀ c ∈ v, p c = true := by
  intro wRev
  induction wRev with
  | nil =>
    intro t v h
    exact matchValue_some h
  | cons c wRev' ih =>
    intro t v h
    unfold matchWsThenValue at h
    cases hm : matchValue p nc t with
    | some w => rw [hm] at h; cases h; exact matchValue_some hm
    | none => rw [hm] at h; exact ih _ _ h

theorem matchTagAt_some {lit : List Char} {p : Char → Bool} {nc : Bool}
    {s v : List Char} (h : matchTagAt lit p nc s = some v) :
    v ≠ [] ∧ ∀ c ∈ v, p c = true := by
  unfold matchTagAt at h
  cases hd : dropLit lit s with
  | none => rw [hd] at h; cases h
  | some rest =>
    rw [hd] at h
    exact matchWsThenValue_some _ _ _ h

theorem reSearch_prop {f : List Char → Option (List Char)}
    (P : List Char → Prop) (hf : ∀ t v, f t = some v → P v) :
    ∀ s v, reSearch f s = some v → P v := by
  intro s
  induction s with
  | nil => intro v h; unfold reSearch at h; exact hf [] v h
  | cons c cs ih =>
    intro v h
    unfold reSearch at h
    cases hm : f (c :: cs) with
    | some w => rw [hm] at h; cases h; exact hf _ _ hm
    | none => rw [hm] at h; exact ih v h

theorem searchTag_some {lit : String} {p : Char → Bool} {nc : Bool}
    {s v : List Char} (h : searchTag lit p nc s = some v) :
    v ≠ [] ∧ ∀ c ∈ v, p c = true :=
  reSearch_prop (fun v => v ≠ [] ∧ ∀ c ∈ v, p c = true)
    (fun _ _ hm => matchTagAt_some hm) s v h

theorem findFirstMatch_prop {f : List Char → Option (List Char)}
    (P : List Char → Prop) (hf : ∀ t v, f t = some v → P v) :
    ∀ ls v, findFirstMatch f ls = some v → P v := by
  intro ls
  induction ls with
  | nil => intro v h; cases h
  | cons l ls' ih =>
    intro v h
    unfold findFirstMatch at h
    cases hm : f l with
    | some w => rw [hm] at h; cases h; exact hf _ _ hm
    | none => rw [hm] at h; exact ih v h

theorem findFrameCnt_ne_nil {lines : List (List Char)} {v : List Char}
    (h : findFrameCnt lines = some v) : v ≠ [] :=
  (findFirstMatch_prop (fun v => v ≠ [] ∧ ∀ c ∈ v, Char.isDigit c = true)
    (fun _ _ hm => searchTag_some hm) lines v h).1

theorem extractLatitude_charset {line v : List Char}
    (h : extractLatitude line = some v) :
    v ≠ [] ∧ ∀ c ∈ v, isDigitDot c = true :=
  searchTag_some h

theorem extractLongitude_charset {line v : List Char}
    (h : extractLongitude line = some v) :
    v ≠ [] ∧ ∀ c ∈ v, isDigitDot c = true :=
  searchTag_some h

theorem pyTruthy_eq_isSome {o : Option (List Char)}
    (h : ∀ v, o = some v → v ≠ []) : pyTruthy o = o.isSome := by
  cases o with
  | none => rfl
  | some v =>
    have hv := h v rfl
    simp [pyTruthy, hv]

theorem extract_isSome_iff (lines : List (List Char)) :
    (extract_frame_info lines).isSome ↔
      ((findFrameCnt lines).isSome
        ∧ ∃ ml, lines.find? isMetaLine = some ml
            ∧ (extractLatitude ml).isSome ∧ (extractLongitude ml).isSome) := by
  unfold extract_frame_info
  cases hml : lines.find? isMetaLine with
  | none => simp
  | some ml =>
    have hfi : pyTruthy (findFrameCnt lines) = (findFrameCnt lines).isSome :=
      pyTruthy_eq_isSome (fun _ hv => findFrameCnt_ne_nil hv)
    have hlat : pyTruthy (parse_metadata_line ml).latitude
        = (extractLatitude ml).isSome :=
      pyTruthy_eq_isSome (fun _ hv => (extractLatitude_charset hv).1)
    have hlon : pyTruthy (parse_metadata_line ml).longitude
        = (extractLongitude ml).isSome :=
      pyTruthy_eq_isSome (fun _ hv => (extractLongitude_charset hv).1)
    simp only [hfi, hlat, hlon]
    by_cases h1 : (findFrameCnt lines).isSome <;>
      by_cases h2 : (extractLatitude ml).isSome <;>
        by_cases h3 : (extractLongitude ml).isSome <;>
          simp [h1, h2, h3]

/-! ### C3: a record requires sequence index, latitude and longitude -/

/-- C3: the Parser produces a record exactly when the block has an
extractable `FrameCnt` sequence index and a metadata-tag line from which
both a latitude and a longitude are extractable; lacking any of the three,
the block yields no record. -/
theorem extract_frame_info_requires_fields (lines : List (List Char)) :
    (extract_frame_info lines).isSome ↔
      ((findFrameCnt lines).isSome
        ∧ ∃ ml, lines.find? isMetaLine = some ml
            ∧ (extractLatitude ml).isSome ∧ (extractLongitude ml).isSome) :=
  extract_isSome_iff lines

/-! ### Failure lemmas for the coordinate pattern -/

theorem dropLit_self_append (lit r : List Char) :
    dropLit lit (lit ++ r) = some r := by
  induction lit with
  | nil => rfl
  | cons c cs ih => simp [dropLit, ih]

theorem matchTagAt_none_of_no_lit {lit : List Char} {p : Char → Bool}
    {nc : Bool} {s : List Char} (h : dropLit lit s = none) :
    matchTagAt lit p nc s = none := by
  unfold matchTagAt
  rw [h]

theorem matchValue_none_of_head {p : Char → Bool} {nc : Bool} {t : List Char}
    (h : ∀ c, t.head? = some c → p c = false) :
    matchValue p nc t = none := by
  have ht : (takeRun p t).1 = [] := by
    cases t with
    | nil => rfl
    | cons c cs =>
      rw [takeRun_cons]
      rw [h c rfl]
      simp
  unfold matchValue
  rw [ht]
  rfl

theorem matchWsThenValue_none {p : Char → Bool} {nc : Bool} :
    ∀ (wRev t : List Char), (∀ c ∈ wRev, p c = false) →
      (∀ c, t.head? = some c → p c = false) →
      matchWsThenValue p nc wRev t = none := by
  intro wRev
  induction wRev with
  | nil =>
    intro t _ ht
    exact matchValue_none_of_head ht
  | cons c wRev' ih =>
    intro t hw ht
    unfold matchWsThenValue
    rw [matchValue_none_of_head ht]
    exact ih (c :: t) (fun d hd => hw d (List.mem_cons_of_mem c hd))
      (fun d hd => by
        cases hd
        exact hw c (List.mem_cons_self c wRev'))

theorem takeRun_append_all {p : Char → Bool} (w t : List Char)
    (hw : ∀ c ∈ w, p c = true) (ht : ∀ c, t.head? = some c → p c = false) :
    takeRun p (w ++ t) = (w, t) := by
  induction w with
  | nil =>
    cases t with
    | nil => rfl
    | cons c cs =>
      simp only [List.nil_append, takeRun_cons, ht c rfl]
      simp
  | cons c cs ih =>
    have hc : p c = true := hw c (List.mem_cons_self c cs)
    have ihh := ih (fun d hd => hw d (List.mem_cons_of_mem c hd))
    simp only [List.cons_append, takeRun_cons, hc, if_true, ihh]

theorem reSearch_none {f : List Char → Option (List Char)} :
    ∀ s : List Char, (∀ j : ℕ, f (s.drop j) = none) → reSearch f s = none := by
  intro s
  induction s with
  | nil =>
    intro h
    exact h 0
  | cons c cs ih =>
    intro h
    have h0 := h 0
    rw [List.drop_zero] at h0
    unfold reSearch
    rw [h0]
    exact ih (fun j => h (j + 1))

theorem ws_not_digitdot {c : Char} (h : isPyWs c = true) :
    isDigitDot c = false := by
  unfold isPyWs at h
  simp only [Bool.or_eq_true, decide_eq_true_eq] at h
  rcases h with ((((h | h) | h) | h) | h) | h <;> subst h <;> rfl

theorem dropLit_nil {l : List Char} (h : l ≠ []) : dropLit l [] = none := by
  cases l with
  | nil => exact absurd rfl h
  | cons c cs => rfl

/-- A `[\d.]+` tag pattern fails on a whole line when the only occurrence of
its literal head there is followed (after whitespace) by a minus sign: the
character class `[\d.]` cannot consume `-`.  Stated for an arbitrary tag
literal, covering both the latitude and the longitude pattern. -/
theorem searchTag_none_of_negative (lit : String) (hne : lit.toList ≠ [])
    (a ws b : List Char)
    (hws : ∀ c ∈ ws, isPyWs c = true)
    (huniq : ∀ j : ℕ, j < (a ++ lit.toList ++ ws ++ '-' :: b).length →
      (dropLit lit.toList
        ((a ++ lit.toList ++ ws ++ '-' :: b).drop j)).isSome →
      j = a.length) :
    searchTag lit isDigitDot true (a ++ lit.toList ++ ws ++ '-' :: b) = none := by
  unfold searchTag
  apply reSearch_none
  intro j
  by_cases hj : j < (a ++ lit.toList ++ ws ++ '-' :: b).length
  · by_cases hd : (dropLit lit.toList
        ((a ++ lit.toList ++ ws ++ '-' :: b).drop j)).isSome
    · have hja := huniq j hj hd
      subst hja
      have hassoc : a ++ lit.toList ++ ws ++ '-' :: b
          = a ++ (lit.toList ++ (ws ++ '-' :: b)) := by
        simp [List.append_assoc]
      rw [hassoc, List.drop_left]
      unfold matchTagAt
      have htr := takeRun_append_all ws ('-' :: b) hws
        (fun c hc => by cases hc; rfl)
      simp only [dropLit_self_append, htr]
      exact matchWsThenValue_none ws.reverse ('-' :: b)
        (fun c hc => ws_not_digitdot (hws c (List.mem_reverse.mp hc)))
        (fun c hc => by cases hc; rfl)
    · exact matchTagAt_none_of_no_lit (Option.not_isSome_iff_eq_none.mp hd)
  · rw [List.drop_eq_nil_of_le (le_of_not_lt hj)]
    exact matchTagAt_none_of_no_lit (dropLit_nil hne)

/-! ### C10: negative coordinates are rejected -/

/-- C10: the coordinate extraction patterns match only digits and dots, so a
tag line whose (unique) latitude tag — or whose (unique) longitude tag —
holds a negative value such as `[latitude: -23.5]` yields no coordinate
there, and the Parser yields no record for the block. -/
theorem negative_coordinate_yields_no_record :
    (∀ line v, extractLatitude line = some v →
      ∀ c ∈ v, c.isDigit = true ∨ c = '.')
    ∧ (∀ line v, extractLongitude line = some v →
      ∀ c ∈ v, c.isDigit = true ∨ c = '.')
    ∧ (∀ (lines : List (List Char)) (a ws b : List Char),
        lines.find? isMetaLine = some (a ++ "[latitude:".toList ++ ws ++ '-' :: b) →
        (∀ c ∈ ws, isPyWs c = true) →
        (∀ j : ℕ, j < (a ++ "[latitude:".toList ++ ws ++ '-' :: b).length →
          (dropLit "[latitude:".toList
            ((a ++ "[latitude:".toList ++ ws ++ '-' :: b).drop j)).isSome →
          j = a.length) →
        extract_frame_info lines = none)
    ∧ (∀ (lines : List (List Char)) (a ws b : List Char),
        lines.find? isMetaLine = some (a ++ "[longitude:".toList ++ ws ++ '-' :: b) →
        (∀ c ∈ ws, isPyWs c = true) →
        (∀ j : ℕ, j < (a ++ "[longitude:".toList ++ ws ++ '-' :: b).length →
          (dropLit "[longitude:".toList
            ((a ++ "[longitude:".toList ++ ws ++ '-' :: b).drop j)).isSome →
          j = a.length) →
        extract_frame_info lines = none) := by
  refine ⟨?_, ?_, ?_, ?_⟩
  · intro line v h c hc
    have := (extractLatitude_charset h).2 c hc
    unfold isDigitDot at this
    simp only [Bool.or_eq_true, decide_eq_true_eq] at this
    exact this
  · intro line v h c hc
    have := (extractLongitude_charset h).2 c hc
    unfold isDigitDot at this
    simp only [Bool.or_eq_true, decide_eq_true_eq] at this
    exact this
  · intro lines a ws b hfind hws huniq
    have hlat : extractLatitude (a ++ "[latitude:".toList ++ ws ++ '-' :: b) = none :=
      searchTag_none_of_negative "[latitude:" (by decide) a ws b hws huniq
    rw [← Option.not_isSome_iff_eq_none]
    intro hs
    rw [extract_isSome_iff] at hs
    rcases hs with ⟨_, ml, hml, hlatS, _⟩
    rw [hfind] at hml
    cases hml
    rw [hlat] at hlatS
    cases hlatS
  · intro lines a ws b hfind hws huniq
    have hlon : extractLongitude (a ++ "[longitude:".toList ++ ws ++ '-' :: b) = none :=
      searchTag_none_of_negative "[longitude:" (by decide) a ws b hws huniq
    rw [← Option.not_isSome_iff_eq_none]
    intro hs
    rw [extract_isSome_iff] at hs
    rcases hs with ⟨_, ml, hml, _, hlonS⟩
    rw [hfind] at hml
    cases hml
    rw [hlon] at hlonS
    cases hlonS

/-- Witness for `negative_coordinate_yields_no_record`: every part applied
at a concrete input — a successful latitude and longitude extraction for the
character-class parts, and the blocks `[latitude: -23.5][longitude: 11.9000]`
and `[latitude: 23.5][longitude: -11.9000]` for the two rejection parts. -/
theorem negative_coordinate_yields_no_record_witness :
    (∀ c ∈ "23.5".toList, Char.isDigit c = true ∨ c = '.')
    ∧ (∀ c ∈ "11.9000".toList, Char.isDigit c = true ∨ c = '.')
    ∧ extract_frame_info
        ["FrameCnt: 7".toList,
         "[latitude: -23.5][longitude: 11.9000]".toList] = none
    ∧ extract_frame_info
        ["FrameCnt: 7".toList,
         "[latitude: 23.5][longitude: -11.9000]".toList] = none := by
  refine ⟨?_, ?_, ?_, ?_⟩
  · exact negative_coordinate_yields_no_record.1
      "[latitude: 23.5]".toList "23.5".toList (by decide)
  · exact negative_coordinate_yields_no_record.2.1
      "[longitude: 11.9000]".toList "11.9000".toList (by decide)
  · exact negative_coordinate_yields_no_record.2.2.1
      ["FrameCnt: 7".toList, "[latitude: -23.5][longitude: 11.9000]".toList]
      [] [' '] "23.5][longitude: 11.9000]".toList
      (by decide) (by decide) (by decide)
  · exact negative_coordinate_yields_no_record.2.2.2
      ["FrameCnt: 7".toList, "[latitude: 23.5][longitude: -11.9000]".toList]
      "[latitude: 23.5]".toList [' '] "11.9000]".toList
      (by decide) (by decide) (by decide)

/-! ## The Source File Reader (`extract_srt_metadata.parse_srt_file` and
`write_csv`)

`re.split(r'\n\s*\n', content)` followed by the per-block
`strip()`/`split('\n')` amounts, at the level of lines, to grouping maximal
runs of non-blank lines (a whitespace-only line separates blocks, and empty
blocks are skipped). -/

/-- A line consisting only of whitespace. -/
def isBlankLine (l : List Char) : Bool := l.all isPyWs

/-- Group consecutive non-blank lines into blocks. -/
def splitBlocksAux (acc : List (List Char)) :
    List (List Char) → List (List (List Char))
  | [] => if acc.isEmpty then [] else [acc.reverse]
  | l :: ls =>
    if isBlankLine l then
      if acc.isEmpty then splitBlocksAux [] ls
      else acc.reverse :: splitBlocksAux [] ls
    else splitBlocksAux (l :: acc) ls

/-- Split a file's lines into blocks. -/
def splitBlocks (lines : List (List Char)) : List (List (List Char)) :=
  splitBlocksAux [] lines

/-- The per-block loop of `parse_srt_file`: parse each block in file order,
appending each successful record. -/
def parseBlocks : List (List (List Char)) → List FrameData
  | [] => []
  | b :: bs =>
    match extract_frame_info b with
    | some fd => fd :: parseBlocks bs
    | none => parseBlocks bs

/-- `extract_srt_metadata.parse_srt_file` at the level of lines. -/
def parse_srt_file (lines : List (List Char)) : List FrameData :=
  parseBlocks (splitBlocks lines)

/-- Value of a decimal-digit string. -/
def digitsToNat (t : List Char) : ℕ :=
  t.foldl (fun n c => n * 10 + (c.toNat - 48)) 0

/-- Strip whitespace from both ends, as Python's numeric constructors do. -/
def stripWs (s : List Char) : List Char :=
  ((s.dropWhile isPyWs).reverse.dropWhile isPyWs).reverse

/-- A non-empty all-digit string's value. -/
def pyIntDigits (t : List Char) : Option ℕ :=
  if t.isEmpty then none
  else if t.all Char.isDigit then some (digitsToNat t) else none

/-- Python `int(str)`: optional surrounding whitespace, optional sign,
decimal digits; anything else raises (`none`). -/
def pyInt (s : List Char) : Option ℤ :=
  match stripWs s with
  | '-' :: t => (pyIntDigits t).map (fun n => -(n : ℤ))
  | '+' :: t => (pyIntDigits t).map (fun n => (n : ℤ))
  | t => (pyIntDigits t).map (fun n => (n : ℤ))

/-- The key of `write_csv`'s sort: `int(x.get('frame_index', 0))`.  A `none`
result models the `int` call raising on a non-numeric string. -/
def frameKey (r : FrameData) : Option ℤ :=
  match r.frame_index with
  | none => some 0
  | some s => pyInt s

/-- Key order for `write_csv`'s sort. -/
def frameLeP (r₁ r₂ : FrameData) : Prop :=
  (frameKey r₁).getD 0 ≤ (frameKey r₂).getD 0

instance frameLeP_dec : DecidableRel frameLeP := fun a b =>
  inferInstanceAs (Decidable ((frameKey a).getD 0 ≤ (frameKey b).getD 0))

/-- The ordering `write_csv` applies before writing:
`sorted(data, key=lambda x: int(x.get('frame_index', 0)))`.  Python's sort
is stable, and a stable sort's output is determined uniquely by the key
order, so it is modelled by the stable insertion sort; the `Option` guard
models `int` raising on a non-numeric `frame_index`. -/
def write_csv_order (data : List FrameData) : Option (List FrameData) :=
  if data.all (fun r => (frameKey r).isSome) then
    some (List.insertionSort frameLeP data)
  else none

theorem parseBlocks_append (bs₁ bs₂ : List (List (List Char))) :
    parseBlocks (bs₁ ++ bs₂) = parseBlocks bs₁ ++ parseBlocks bs₂ := by
  induction bs₁ with
  | nil => rfl
  | cons b bs ih =>
    simp only [List.cons_append, parseBlocks]
    cases extract_frame_info b with
    | some fd => simp [ih]
    | none => simp [ih]

/-- One concrete record with the given sequence index (used to exhibit the
ordering applied by `write_csv`). -/
def recIdx (s : String) : FrameData :=
  { frame_index := some s.toList
    timestamp := none
    iso := none
    shutter := none
    aperture := none
    ev := none
    color_mode := none
    focal_length := none
    latitude := some "50.1000".toList
    longitude := some "11.9000".toList
    relative_altitude := none
    absolute_altitude := none
    color_temperature := none }

/-! ### C9: ordering of the Reader's output -/

/-- C9 counterexample: the claim says the Reader hands its records onward in
file order with no re-ordering; but `write_csv` sorts them by numeric
`frame_index` before writing, so records parsed in the order `2, 1` are
written in the order `1, 2`. -/
theorem write_csv_reorders :
    write_csv_order [recIdx "2", recIdx "1"] = some [recIdx "1", recIdx "2"]
    ∧ [recIdx "1", recIdx "2"] ≠ [recIdx "2", recIdx "1"] := by
  constructor
  · decide
  · decide

/-- C9 amended: `parse_srt_file`'s block loop emits the successfully parsed
records in file order (parsing distributes over concatenation of block
sequences, with no re-ordering and no assumption on the indices); `write_csv`
then sorts the records by numeric `frame_index`, so the persisted per-source
CSV is in sequence-index order, not file order. -/
theorem reader_order_spec :
    (∀ bs₁ bs₂ : List (List (List Char)),
      parseBlocks (bs₁ ++ bs₂) = parseBlocks bs₁ ++ parseBlocks bs₂)
    ∧ (∀ (data out : List FrameData), write_csv_order data = some out →
        out.Perm data ∧ List.Sorted frameLeP out) := by
  constructor
  · exact parseBlocks_append
  · intro data out h
    unfold write_csv_order at h
    split at h
    · cases h
      constructor
      · exact List.perm_insertionSort frameLeP data
      · haveI : IsTotal FrameData frameLeP := ⟨fun a b => le_total _ _⟩
        haveI : IsTrans FrameData frameLeP := ⟨fun _ _ _ => le_trans⟩
        exact List.sorted_insertionSort frameLeP data
    · cases h

/-- Witness for `reader_order_spec` on the concrete two-record input. -/
theorem reader_order_spec_witness :
    ([recIdx "1", recIdx "2"] : List FrameData).Perm [recIdx "2", recIdx "1"]
    ∧ List.Sorted frameLeP [recIdx "1", recIdx "2"] :=
  reader_order_spec.2 [recIdx "2", recIdx "1"] [recIdx "1", recIdx "2"]
    (by decide)

/-! ## The Consolidator (`create_consolidated_csv.py`)

A consolidated row carries the fields the consolidation logic reads; the
camera-exposure columns are carried opaquely by the code and play no part in
sorting or statistics, so they are omitted from the model. -/

/-- One row of the consolidated table. -/
structure Row where
  video_name : List Char
  frame_index : Option (List Char)
  timestamp : Option (List Char)
  latitude : Option (List Char)
  longitude : Option (List Char)
  relative_altitude : Option (List Char)
  deriving DecidableEq, Repr

/-- The numeric part of `sort_key` (`create_consolidated_csv.py:93-99`):
`int(row.get('frame_index', 0))` with `try/except` defaulting to `0` for a
missing or non-numeric value.  The stored row is not touched. -/
def sortKeyIdx (row : Row) : ℤ :=
  match row.frame_index with
  | none => 0
  | some s => (pyInt s).getD 0

/-- Comparison of `sort_key` tuples `(video_name, frame_idx)`, exactly
Python's lexicographic tuple order (strings by code point). -/
def sort_key_le (r₁ r₂ : Row) : Prop :=
  r₁.video_name < r₂.video_name
    ∨ (r₁.video_name = r₂.video_name ∧ sortKeyIdx r₁ ≤ sortKeyIdx r₂)

instance sort_key_le_dec : DecidableRel sort_key_le := fun a b =>
  inferInstanceAs (Decidable (a.video_name < b.video_name
    ∨ (a.video_name = b.video_name ∧ sortKeyIdx a ≤ sortKeyIdx b)))

/-- `all_rows.sort(key=sort_key)`: Python's sort is stable and a stable
sort's output is determined uniquely by the key order, so it is modelled by
the stable insertion sort. -/
def consolidated_sort (rows : List Row) : List Row :=
  List.insertionSort sort_key_le rows

theorem sort_key_le_total : ∀ a b : Row, sort_key_le a b ∨ sort_key_le b a := by
  intro a b
  rcases lt_trichotomy a.video_name b.video_name with h | h | h
  · exact Or.inl (Or.inl h)
  · rcases le_total (sortKeyIdx a) (sortKeyIdx b) with hk | hk
    · exact Or.inl (Or.inr ⟨h, hk⟩)
    · exact Or.inr (Or.inr ⟨h.symm, hk⟩)
  · exact Or.inr (Or.inl h)

theorem sort_key_le_trans :
    ∀ a b c : Row, sort_key_le a b → sort_key_le b c → sort_key_le a c := by
  intro a b c hab hbc
  rcases hab with hab | ⟨hab, hka⟩
  · rcases hbc with hbc | ⟨hbc, _⟩
    · exact Or.inl (lt_trans hab hbc)
    · exact Or.inl (hbc ▸ hab)
  · rcases hbc with hbc | ⟨hbc, hkb⟩
    · exact Or.inl (hab ▸ hbc)
    · exact Or.inr ⟨hab.trans hbc, le_trans hka hkb⟩

/-- Rows of the consolidation-ordering scenario: source `A` with indices
`2, 1` and source `B` with index `1`. -/
def rowA1 : Row := ⟨"A".toList, some "1".toList, none, none, none, none⟩

/-- Source `A`, index `2`. -/
def rowA2 : Row := ⟨"A".toList, some "2".toList, none, none, none, none⟩

/-- Source `B`, index `1`. -/
def rowB1 : Row := ⟨"B".toList, some "1".toList, none, none, none, none⟩

/-! ### C4: ordering of the consolidated table -/

/-- C4: the Consolidator's sort permutes the rows (stored values are left
unchanged) into ascending `(video_name, frame_idx)` key order, with a
missing or non-numeric `frame_index` entering the key as `0` only; sources
`A` (indices 2, 1) and `B` (index 1), concatenated in discovery order, sort
to exactly `[A:1, A:2, B:1]`. -/
theorem consolidated_sort_spec :
    (∀ rows : List Row, (consolidated_sort rows).Perm rows
      ∧ List.Sorted sort_key_le (consolidated_sort rows))
    ∧ consolidated_sort [rowA2, rowA1, rowB1] = [rowA1, rowA2, rowB1] := by
  constructor
  · intro rows
    constructor
    · exact List.perm_insertionSort sort_key_le rows
    · haveI : IsTotal Row sort_key_le := ⟨sort_key_le_total⟩
      haveI : IsTrans Row sort_key_le := ⟨sort_key_le_trans⟩
      exact List.sorted_insertionSort sort_key_le rows
  · decide

/-! ### Aggregate statistics (`create_consolidated_csv.py:63-76, 157-166`) -/

/-- The fractional and integral digit runs of a plain decimal literal. -/
def pyFloatDigits (t : List Char) : Option ℚ :=
  match (takeRun Char.isDigit t).2 with
  | [] =>
    if (takeRun Char.isDigit t).1.isEmpty then none
    else some (digitsToNat (takeRun Char.isDigit t).1 : ℚ)
  | '.' :: r2 =>
    if ((takeRun Char.isDigit r2).2).isEmpty then
      if (takeRun Char.isDigit t).1.isEmpty && ((takeRun Char.isDigit r2).1).isEmpty
      then none
      else some ((digitsToNat (takeRun Char.isDigit t).1 : ℚ)
        + (digitsToNat (takeRun Char.isDigit r2).1 : ℚ)
          / 10 ^ ((takeRun Char.isDigit r2).1).length)
    else none
  | _ => none

/-- Python `float(str)` on plain decimal literals: optional surrounding
whitespace, optional sign, digits with an optional decimal point (at least
one digit).  Exponent and special forms, which this pipeline's regexes never
produce, are not modelled. -/
def pyFloat (s : List Char) : Option ℚ :=
  match stripWs s with
  | '-' :: t => (pyFloatDigits t).map Neg.neg
  | '+' :: t => pyFloatDigits t
  | t => pyFloatDigits t

/-- `create_consolidated_csv.safe_float`: `float(value) if value else None`
under `try/except` — `None` and the empty string give `None`, as does a
parse failure. -/
def safe_float (v : Option (List Char)) : Option ℚ :=
  match v with
  | none => none
  | some s => if s.isEmpty then none else pyFloat s

/-- The per-source accumulators of `video_stats`. -/
structure VideoStats where
  count : ℕ
  latitudes : List ℚ
  longitudes : List ℚ
  altitudes : List ℚ
  timestamps : List (List Char)
  deriving DecidableEq, Repr

/-- Append a parsed value when it is truthy (`if lat:` — false for `None`
and for `0.0`). -/
def appendIfTruthy (l : List ℚ) (o : Option ℚ) : List ℚ :=
  match o with
  | some q => if q = 0 then l else l ++ [q]
  | none => l

/-- The body of the statistics loop (`create_consolidated_csv.py:63-76`). -/
def statsStep (st : VideoStats) (row : Row) : VideoStats :=
  { count := st.count + 1
    latitudes := appendIfTruthy st.latitudes (safe_float row.latitude)
    longitudes := appendIfTruthy st.longitudes (safe_float row.longitude)
    altitudes := appendIfTruthy st.altitudes (safe_float row.relative_altitude)
    timestamps :=
      match row.timestamp with
      | some ts => if ts.isEmpty then st.timestamps else st.timestamps ++ [ts]
      | none => st.timestamps }

/-- The statistics accumulated over a source's rows. -/
def collect_stats (rows : List Row) : VideoStats :=
  rows.foldl statsStep ⟨0, [], [], [], []⟩

/-- The reported latitude aggregate (`statistics_summary`, lines 157-158):
present only when at least one value was accumulated. -/
def latitude_range (st : VideoStats) : Option (ℚ × ℚ) :=
  match st.latitudes with
  | [] => none
  | q :: qs => some (qs.foldl min q, qs.foldl max q)

/-- A parsed value after the truthiness filter. -/
def truthyFloat (o : Option ℚ) : Option ℚ :=
  match o with
  | some q => if q = 0 then none else some q
  | none => none

theorem appendIfTruthy_eq (l : List ℚ) (o : Option ℚ) :
    appendIfTruthy l o = l ++ (truthyFloat o).toList := by
  cases o with
  | none => simp [appendIfTruthy, truthyFloat]
  | some q =>
    by_cases hq : q = 0
    · simp [appendIfTruthy, truthyFloat, hq]
    · simp [appendIfTruthy, truthyFloat, hq]

theorem collect_stats_foldl (rows : List Row) :
    ∀ st : VideoStats,
      (rows.foldl statsStep st).count = st.count + rows.length
      ∧ (rows.foldl statsStep st).latitudes
          = st.latitudes ++ rows.filterMap (fun r => truthyFloat (safe_float r.latitude))
      ∧ (rows.foldl statsStep st).longitudes
          = st.longitudes ++ rows.filterMap (fun r => truthyFloat (safe_float r.longitude))
      ∧ (rows.foldl statsStep st).altitudes
          = st.altitudes ++ rows.filterMap (fun r => truthyFloat (safe_float r.relative_altitude)) := by
  induction rows with
  | nil => intro st; simp
  | cons r rows ih =>
    intro st
    have hstep := ih (statsStep st r)
    refine ⟨?_, ?_, ?_, ?_⟩
    · rw [List.foldl_cons, hstep.1]
      simp [statsStep]
      omega
    · rw [List.foldl_cons, hstep.2.1]
      simp only [statsStep, appendIfTruthy_eq, List.filterMap_cons]
      cases truthyFloat (safe_float r.latitude) <;> simp
    · rw [List.foldl_cons, hstep.2.2.1]
      simp only [statsStep, appendIfTruthy_eq, List.filterMap_cons]
      cases truthyFloat (safe_float r.longitude) <;> simp
    · rw [List.foldl_cons, hstep.2.2.2]
      simp only [statsStep, appendIfTruthy_eq, List.filterMap_cons]
      cases truthyFloat (safe_float r.relative_altitude) <;> simp

/-! ### C8: which records feed the aggregates -/

/-- A concrete row whose latitude is the numeric string `"0"`. -/
def zRow : Row :=
  ⟨"A".toList, some "1".toList, none, some "0".toList, some "11.9".toList, none⟩

/-- C8 counterexample: the claim says every record whose field parses to a
number — including `0` — feeds that field's aggregate.  A latitude of `"0"`
parses to `0`, yet the truthiness test `if lat:` drops it, so the latitude
aggregate stays empty (and is reported as absent) even though a numeric
latitude was present. -/
theorem collect_stats_drops_zero :
    safe_float zRow.latitude = some 0
    ∧ (collect_stats [zRow]).latitudes = []
    ∧ latitude_range (collect_stats [zRow]) = none := by
  refine ⟨by decide, by decide, by decide⟩

/-- C8 amended: each aggregate accumulates exactly the records whose value
for that field parses to a *nonzero* number (Python truthiness excludes both
unparsable values and `0.0`); a record missing or failing one field still
contributes to the other fields' lists; and an aggregate with no
contributing records is reported as absent, not as zero. -/
theorem collect_stats_spec (rows : List Row) :
    (collect_stats rows).count = rows.length
    ∧ (collect_stats rows).latitudes
        = rows.filterMap (fun r => truthyFloat (safe_float r.latitude))
    ∧ (collect_stats rows).longitudes
        = rows.filterMap (fun r => truthyFloat (safe_float r.longitude))
    ∧ (collect_stats rows).altitudes
        = rows.filterMap (fun r => truthyFloat (safe_float r.relative_altitude))
    ∧ (latitude_range (collect_stats rows) = none
        ↔ (collect_stats rows).latitudes = []) := by
  have h := collect_stats_foldl rows ⟨0, [], [], [], []⟩
  refine ⟨by simpa using h.1, by simpa using h.2.1, by simpa using h.2.2.1,
    by simpa using h.2.2.2, ?_⟩
  unfold latitude_range
  cases hl : (collect_stats rows).latitudes with
  | nil => simp
  | cons q qs => simp

/-! ## The Spatial Interpolator (`generate_analytical_map.create_interpolation_grid`)

Inside the per-node loop the code computes `distance = sqrt(d2)` and uses it
only in the comparisons `distance < max_distance`, `distance < 0.00001` and
in the weight `1 / distance ** 2.0`.  Over the reals `sqrt(d2) < c ↔ d2 < c²`
for `c ≥ 0` and `(sqrt d2)² = d2`, so the loop is embedded exactly on squared
distances, keeping every operation rational. -/

/-- One scored input point. -/
structure HealthPoint where
  lat : ℚ
  lon : ℚ
  health : ℚ
  deriving DecidableEq, Repr

/-- `max_distance = 0.001` squared. -/
def maxDistance2 : ℚ := 1/1000000

/-- The exact-match epsilon `0.00001` squared. -/
def epsDistance2 : ℚ := 1/10000000000

/-- Squared planar distance from a lattice node to a point. -/
def pointDist2 (glat glon : ℚ) (p : HealthPoint) : ℚ :=
  (glat - p.lat) ^ 2 + (glon - p.lon) ^ 2

/-- The accumulation loop over the input points
(`generate_analytical_map.py:85-99`): `acc` is
`(weighted_sum, weight_sum)`; an epsilon-close point overwrites the
accumulator with `(health, 1.0)` and breaks. -/
def idwLoop (glat glon : ℚ) : List HealthPoint → ℚ × ℚ → ℚ × ℚ
  | [], acc => acc
  | p :: ps, acc =>
    if pointDist2 glat glon p < maxDistance2 then
      if pointDist2 glat glon p < epsDistance2 then (p.health, 1)
      else idwLoop glat glon ps
        (acc.1 + p.health * (1 / pointDist2 glat glon p),
         acc.2 + 1 / pointDist2 glat glon p)
    else idwLoop glat glon ps acc

/-- Value of one lattice node (`generate_analytical_map.py:101-107`):
`none` when `weight_sum > 0` fails, so the node is omitted from the sparse
grid. -/
def idw_node (points : List HealthPoint) (glat glon : ℚ) : Option ℚ :=
  if 0 < (idwLoop glat glon points (0, 0)).2 then
    some (round2 ((idwLoop glat glon points (0, 0)).1
      / (idwLoop glat glon points (0, 0)).2))
  else none

/-- `create_interpolation_grid`: the regular lattice over the bounding
rectangle, one candidate node per `(i, j)`, keeping only nodes with some
point in range.  `none` models `min`/`max` raising on an empty point list. -/
def create_interpolation_grid (points : List HealthPoint) (grid_size : ℕ) :
    Option (List (ℚ × ℚ × ℚ)) :=
  match points with
  | [] => none
  | p :: ps =>
    let min_lat := ps.foldl (fun m q => min m q.lat) p.lat
    let max_lat := ps.foldl (fun m q => max m q.lat) p.lat
    let min_lon := ps.foldl (fun m q => min m q.lon) p.lon
    let max_lon := ps.foldl (fun m q => max m q.lon) p.lon
    let lat_step := (max_lat - min_lat) / grid_size
    let lon_step := (max_lon - min_lon) / grid_size
    some ((List.range (grid_size + 1)).flatMap (fun i =>
      (List.range (grid_size + 1)).filterMap (fun j =>
        (idw_node points (min_lat + i * lat_step) (min_lon + j * lon_step)).map
          (fun h => (min_lat + i * lat_step, min_lon + j * lon_step, h)))))

theorem roundHalfEven_intCast (m : ℤ) : roundHalfEven (m : ℚ) = m := by
  unfold roundHalfEven
  dsimp only
  rw [Int.floor_intCast, sub_self]
  rw [if_pos (by norm_num : (0:ℚ) < 1/2)]

theorem round2_intCast (n : ℤ) : round2 (n : ℚ) = n := by
  unfold round2
  rw [show ((n:ℚ) * 100) = (((n * 100 : ℤ)) : ℚ) by push_cast; ring,
    roundHalfEven_intCast]
  push_cast
  ring

/-- The two coincident points of the C6 counterexample: the earlier one. -/
def qPoint : HealthPoint := ⟨0, 0, 30⟩

/-- The two coincident points of the C6 counterexample: the later one. -/
def pPoint : HealthPoint := ⟨0, 0, 70⟩

/-! ### C6: the epsilon short-circuit -/

/-- C6 counterexample: the lattice node `(0,0)` lies within epsilon of the
input point `pPoint` of score `70`, yet the node reports `30` — the score of
the *earlier* epsilon-close point in the list — so the claim that the node
reports `p`'s score regardless of other nearby points fails when two points
are epsilon-close. -/
theorem idw_node_first_eps_wins :
    pointDist2 0 0 pPoint < epsDistance2
    ∧ pPoint.health = 70
    ∧ idw_node [qPoint, pPoint] 0 0 = some 30
    ∧ idw_node [qPoint, pPoint] 0 0 ≠ some 70 := by
  have hd2q : pointDist2 0 0 qPoint = 0 := by norm_num [pointDist2, qPoint]
  have hl : idwLoop 0 0 [qPoint, pPoint] (0, 0) = (30, 1) := by
    simp only [idwLoop, hd2q]
    norm_num [maxDistance2, epsDistance2, qPoint]
  have hval : idw_node [qPoint, pPoint] 0 0 = some 30 := by
    unfold idw_node
    rw [hl]
    rw [if_pos (by norm_num : (0:ℚ) < (((30:ℚ), (1:ℚ))).2)]
    rw [show (((30:ℚ), (1:ℚ))).1 / (((30:ℚ), (1:ℚ))).2 = (((30:ℤ)) : ℚ) by
      norm_num]
    rw [round2_intCast]
    norm_num
  refine ⟨by norm_num [pointDist2, pPoint, epsDistance2], rfl, hval, ?_⟩
  rw [hval]
  norm_num

/-- C6 amended: the *first* point in input order whose distance to the node
is below epsilon wins outright: the node's value is that point's score
(rounded to 2 decimals), discarding any weighted accumulation from the
earlier points and never examining the later ones — so it is independent of
every other point's score. -/
theorem idw_node_eps_short_circuit (pre post : List HealthPoint)
    (p : HealthPoint) (glat glon : ℚ)
    (hpre : ∀ q ∈ pre, ¬ pointDist2 glat glon q < epsDistance2)
    (hp : pointDist2 glat glon p < epsDistance2) :
    idw_node (pre ++ p :: post) glat glon = some (round2 p.health) := by
  have hmax : pointDist2 glat glon p < maxDistance2 :=
    lt_trans hp (by norm_num [epsDistance2, maxDistance2])
  have hloop : ∀ l : List HealthPoint,
      (∀ q ∈ l, ¬ pointDist2 glat glon q < epsDistance2) →
      ∀ acc : ℚ × ℚ, idwLoop glat glon (l ++ p :: post) acc = (p.health, 1) := by
    intro l
    induction l with
    | nil =>
      intro _ acc
      simp only [List.nil_append, idwLoop]
      rw [if_pos hmax, if_pos hp]
    | cons q l' ih =>
      intro hl acc
      have hq : ¬ pointDist2 glat glon q < epsDistance2 :=
        hl q (List.mem_cons_self q l')
      have ih' := ih (fun r hr => hl r (List.mem_cons_of_mem q hr))
      simp only [List.cons_append, idwLoop]
      by_cases hqm : pointDist2 glat glon q < maxDistance2
      · rw [if_pos hqm, if_neg hq]
        exact ih' _
      · rw [if_neg hqm]
        exact ih' _
  unfold idw_node
  rw [hloop pre hpre (0, 0)]
  rw [if_pos (by norm_num : (0:ℚ) < ((p.health, (1:ℚ))).2)]
  norm_num

/-- Witness for `idw_node_eps_short_circuit`: an out-of-epsilon point before,
an ignored point after. -/
theorem idw_node_eps_short_circuit_witness :
    idw_node [⟨1, 1, 50⟩, ⟨0, 0, 70⟩, ⟨0, 0, 20⟩] 0 0
      = some (round2 (70 : ℚ)) :=
  idw_node_eps_short_circuit [⟨1, 1, 50⟩] [⟨0, 0, 20⟩] ⟨0, 0, 70⟩ 0 0
    (by
      intro q hq
      rw [List.mem_singleton] at hq
      subst hq
      norm_num [pointDist2, epsDistance2])
    (by norm_num [pointDist2, epsDistance2])
